import Mathlib

/-!
Shallow embedding of the bevy_kart networking/session stack
(crates bevy_easy_p2p and bevy_firestore_p2p) and proofs about it.

Every definition mirrors a concrete item of the Rust source; the file/line
of the mirrored item is given in each doc comment.  Machine integers (u8,
u64) are modelled as Nat with explicit wrapping where the source wraps;
fallible or panicking code returns Option (none models a panic); the
per-tick Bevy message flow is modelled as explicit state passing over
event lists.
-/

namespace BevyKart

/-- Mirrors NetworkedId, src/bevy_easy_p2p/src/state.rs lines 14-18:
the host sentinel or a u64 client id. -/
inductive NetworkedId where
  | host
  | clientId (cid : Nat)
deriving DecidableEq, Repr

/-- Mirrors PlayerInfo, src/bevy_easy_p2p/src/state.rs lines 47-51. -/
structure PlayerInfo (PD : Type) where
  id : NetworkedId
  data : PD
deriving DecidableEq, Repr

/-- Mirrors ExitReason, src/bevy_easy_p2p/src/api.rs lines 50-54. -/
inductive ExitReason where
  | disconnected
  | kicked
deriving DecidableEq, Repr

/-- Mirrors P2PLobbyState, src/bevy_easy_p2p/src/state.rs lines 6-12. -/
inductive P2PLobbyState where
  | outOfLobby
  | joiningLobby
  | inLobby
deriving DecidableEq, Repr

/-- Mirrors NetTransform, src/bevy_easy_p2p/src/state.rs lines 65-70.
The f32 components are abstracted by the scalar type F, which the wire
document stores exactly (serde_json prints a finite f32 so that parsing
returns the same value). -/
structure NetTransform (F : Type) where
  translation : F × F × F
  rotation : F × F × F × F
  scale : F × F × F
deriving DecidableEq, Repr

/-- Mirrors InstantiationDataNet, src/bevy_easy_p2p/src/state.rs lines 95-99. -/
structure InstantiationDataNet (F Inst : Type) where
  transform : NetTransform F
  instantiation : Inst
deriving DecidableEq, Repr

/-- Mirrors the P2PData wire enum, src/bevy_easy_p2p/src/state.rs lines 53-63. -/
inductive P2PData (F PD PID Inst : Type) where
  | clientLobbyChatMessage (text : String) (sender : NetworkedId)
  | clientInput (input : PID)
  | clientDataUpdate (data : PD)
  | hostLobbyInfoUpdate (players : List (PlayerInfo PD))
  | stateSync (index : Nat) (payload : String)
  | eventSync (index : Nat) (payload : String)
  | hostInstantiation (data : InstantiationDataNet F Inst)
  | pingRequest (timestamp : F)
deriving DecidableEq, Repr

/-- JSON documents, the target of serde_json::to_string as invoked by
encode_outgoing (src/bevy_easy_p2p/src/systems.rs lines 126-170) and the
source of serde_json::from_str as invoked by decode_incoming (same file,
lines 172-204).  num carries the integer scalars (the u8 sync index),
fnum carries the f32 scalars abstracted by F. -/
inductive Json (F : Type) where
  | str (s : String)
  | num (n : Nat)
  | fnum (x : F)
  | arr (elems : List (Json F))
  | obj (fields : List (String × Json F))

/-- Field lookup in a JSON object, as serde struct deserializers do
(fields may come in any order, unknown fields are ignored). -/
def Json.lookupField (fields : List (String × Json F)) (k : String) :
    Option (Json F) :=
  (fields.find? (fun kv => decide (kv.1 = k))).map (fun kv => kv.2)

/-- serde encoding of NetworkedId (derive(Serialize) on state.rs lines
14-18): the unit variant Host is the string "Host", ClientId(n) is the
externally tagged object. -/
def encodeNetworkedId (F : Type) : NetworkedId → Json F
  | .host => .str "Host"
  | .clientId n => .obj [("ClientId", .num n)]

/-- serde decoding of NetworkedId (derive(Deserialize) on state.rs lines
14-18). -/
def decodeNetworkedId : Json F → Option NetworkedId
  | .str s => if s = "Host" then some .host else none
  | .obj [(tag, v)] =>
      if tag = "ClientId" then
        match v with
        | .num n => some (.clientId n)
        | _ => none
      else none
  | _ => none

/-- serde encoding of PlayerInfo (state.rs lines 47-51), given an encoder
for the PlayerData payload. -/
def encodePlayerInfo (encPD : PD → Json F) (p : PlayerInfo PD) : Json F :=
  .obj [("id", encodeNetworkedId F p.id), ("data", encPD p.data)]

/-- serde decoding of PlayerInfo (state.rs lines 47-51). -/
def decodePlayerInfo (decPD : Json F → Option PD) : Json F → Option (PlayerInfo PD)
  | .obj fields => do
      let idj ← Json.lookupField fields "id"
      let id ← decodeNetworkedId idj
      let dj ← Json.lookupField fields "data"
      let d ← decPD dj
      pure ⟨id, d⟩
  | _ => none

/-- serde encoding of NetTransform (state.rs lines 65-70): each [f32; N]
array is a JSON array of scalars. -/
def encodeNetTransform : NetTransform F → Json F
  | ⟨(tx, ty, tz), (rx, ry, rz, rw), (sx, sy, sz)⟩ =>
      .obj [("translation", .arr [.fnum tx, .fnum ty, .fnum tz]),
            ("rotation", .arr [.fnum rx, .fnum ry, .fnum rz, .fnum rw]),
            ("scale", .arr [.fnum sx, .fnum sy, .fnum sz])]

/-- serde decoding of NetTransform (state.rs lines 65-70). -/
def decodeNetTransform (j : Json F) : Option (NetTransform F) :=
  match j with
  | .obj fields => do
      let tj ← Json.lookupField fields "translation"
      let t ← match tj with
        | .arr [.fnum a, .fnum b, .fnum c] => some (a, b, c)
        | _ => none
      let rj ← Json.lookupField fields "rotation"
      let r ← match rj with
        | .arr [.fnum a, .fnum b, .fnum c, .fnum d] => some (a, b, c, d)
        | _ => none
      let sj ← Json.lookupField fields "scale"
      let s ← match sj with
        | .arr [.fnum a, .fnum b, .fnum c] => some (a, b, c)
        | _ => none
      pure ⟨t, r, s⟩
  | _ => none

/-- serde encoding of InstantiationDataNet (state.rs lines 95-99). -/
def encodeInstantiationDataNet (encInst : Inst → Json F)
    (d : InstantiationDataNet F Inst) : Json F :=
  .obj [("transform", encodeNetTransform d.transform),
        ("instantiation", encInst d.instantiation)]

/-- serde decoding of InstantiationDataNet (state.rs lines 95-99). -/
def decodeInstantiationDataNet (decInst : Json F → Option Inst) :
    Json F → Option (InstantiationDataNet F Inst)
  | .obj fields => do
      let tj ← Json.lookupField fields "transform"
      let t ← decodeNetTransform tj
      let ij ← Json.lookupField fields "instantiation"
      let i ← decInst ij
      pure ⟨t, i⟩
  | _ => none

/-- Element-wise decoding of a JSON array, as serde decodes Vec. -/
def decodeJsonList (dec : Json F → Option α) : List (Json F) → Option (List α)
  | [] => some []
  | j :: js => do
      let a ← dec j
      let rest ← decodeJsonList dec js
      pure (a :: rest)

/-- The JSON document produced for a P2PData value by the
serde_json::to_string calls of encode_outgoing
(src/bevy_easy_p2p/src/systems.rs lines 126-170): serde's externally
tagged representation of the enum on state.rs lines 53-63. -/
def encodeP2PData (encPD : PD → Json F) (encPID : PID → Json F)
    (encInst : Inst → Json F) : P2PData F PD PID Inst → Json F
  | .clientLobbyChatMessage text sender =>
      .obj [("ClientLobbyChatMessage",
             .arr [.str text, encodeNetworkedId F sender])]
  | .clientInput input => .obj [("ClientInput", encPID input)]
  | .clientDataUpdate d => .obj [("ClientDataUpdate", encPD d)]
  | .hostLobbyInfoUpdate players =>
      .obj [("HostLobbyInfoUpdate",
             .arr (players.map (encodePlayerInfo encPD)))]
  | .stateSync index payload =>
      .obj [("StateSync", .arr [.num index, .str payload])]
  | .eventSync index payload =>
      .obj [("EventSync", .arr [.num index, .str payload])]
  | .hostInstantiation d =>
      .obj [("HostInstantiation", encodeInstantiationDataNet encInst d)]
  | .pingRequest t => .obj [("PingRequest", .fnum t)]

/-- The P2PData value recovered from a JSON document by the
serde_json::from_str calls of decode_incoming
(src/bevy_easy_p2p/src/systems.rs lines 172-204): serde's externally
tagged enum deserializer (exactly one tag key). -/
def decodeP2PData (decPD : Json F → Option PD) (decPID : Json F → Option PID)
    (decInst : Json F → Option Inst) : Json F → Option (P2PData F PD PID Inst)
  | .obj [(tag, v)] =>
      if tag = "ClientLobbyChatMessage" then
        match v with
        | .arr [.str text, j] => (decodeNetworkedId j).map
            (fun sender => .clientLobbyChatMessage text sender)
        | _ => none
      else if tag = "ClientInput" then
        (decPID v).map (fun i => .clientInput i)
      else if tag = "ClientDataUpdate" then
        (decPD v).map (fun d => .clientDataUpdate d)
      else if tag = "HostLobbyInfoUpdate" then
        match v with
        | .arr js => (decodeJsonList (decodePlayerInfo decPD) js).map
            (fun ps => .hostLobbyInfoUpdate ps)
        | _ => none
      else if tag = "StateSync" then
        match v with
        | .arr [.num n, .str s] => some (.stateSync n s)
        | _ => none
      else if tag = "EventSync" then
        match v with
        | .arr [.num n, .str s] => some (.eventSync n s)
        | _ => none
      else if tag = "HostInstantiation" then
        (decodeInstantiationDataNet decInst v).map
          (fun d => .hostInstantiation d)
      else if tag = "PingRequest" then
        match v with
        | .fnum x => some (.pingRequest x)
        | _ => none
      else none
  | _ => none

/-- Mirrors EasyP2PState, src/bevy_easy_p2p/src/state.rs lines 129-145. -/
structure EasyP2PState (PD : Type) where
  local_player_data : PD
  is_host : Bool
  lobby_code : String
  players : List (PlayerInfo PD)
deriving DecidableEq, Repr

/-- Mirrors EasyP2PState::get_players, src/bevy_easy_p2p/src/state.rs
lines 159-170: optionally prepend a synthetic host entry carrying the
local player data, then the stored players. -/
def EasyP2PState.get_players (s : EasyP2PState PD) (add_host : Bool) :
    List (PlayerInfo PD) :=
  (if add_host then [⟨NetworkedId.host, s.local_player_data⟩] else []) ++ s.players

/-- Mirrors EasyP2P::get_player_data, src/bevy_easy_p2p/src/api.rs lines
259-266: find the entry of get_players(self.is_host()) with the given id
and .unwrap() it.  none models the panic of unwrap on None. -/
def get_player_data (s : EasyP2PState PD) (id : NetworkedId) : Option PD :=
  ((s.get_players s.is_host).find? (fun p => decide (p.id = id))).map
    (fun p => p.data)

/-- The shared TypeId-indexed registry core.  SyncedStateRegister
(src/bevy_easy_p2p/src/state.rs lines 176-181) and SyncedEventRegister
(lines 183-188) are this exact shape: a Vec of reader closures, a
HashMap TypeId -> u8 and a u8 counter.  TypeIds are modelled as Nat;
each pushed reader closure is recorded by the TypeId it was specialised
to; the HashMap is an association list with newest insertion first. -/
structure SyncRegister where
  readers : List Nat
  indexes : List (Nat × Nat)
  counter : Nat
deriving DecidableEq, Repr

/-- The empty registry (the Default derive). -/
def SyncRegister.empty : SyncRegister := ⟨[], [], 0⟩

/-- Association-list lookup standing for HashMap::get / contains_key. -/
def SyncRegister.lookupIdx (r : SyncRegister) (t : Nat) : Option Nat :=
  (r.indexes.find? (fun kv => decide (kv.1 = t))).map (fun kv => kv.2)

/-- Mirrors SyncedStateRegister::register_state
(src/bevy_easy_p2p/src/state.rs lines 190-215) and the verbatim
identical SyncedEventRegister::register_event (lines 217-241): early
return when the TypeId is present; otherwise record the current counter
as the type's index, advance the u8 counter with wrapping_add(1), and
push one reader closure. -/
def SyncRegister.register (r : SyncRegister) (t : Nat) : SyncRegister :=
  if (r.lookupIdx t).isSome then r
  else
    { readers := r.readers ++ [t],
      indexes := (t, r.counter) :: r.indexes,
      counter := (r.counter + 1) % 256 }

/-- register_state, state.rs lines 190-215 (see SyncRegister.register). -/
def register_state (r : SyncRegister) (t : Nat) : SyncRegister := r.register t

/-- register_event, state.rs lines 217-241 (see SyncRegister.register). -/
def register_event (r : SyncRegister) (t : Nat) : SyncRegister := r.register t

/-- Registering a list of types in order, starting from a register. -/
def registerAll (r : SyncRegister) (ts : List Nat) : SyncRegister :=
  ts.foldl SyncRegister.register r

/-- Mirrors EasyP2PUpdate, src/bevy_easy_p2p/src/updates.rs lines 6-42.
The Instantiated payload's bevy Transform is carried as the equivalent
NetTransform over the abstract scalar F. -/
inductive EasyP2PUpdate (F PD PID Inst : Type) where
  | lobbyCreated (code : String)
  | lobbyJoined (code : String)
  | lobbyEntered (code : String)
  | lobbyExited (reason : ExitReason)
  | hostChat (text : String)
  | clientChat (client_id : Nat) (text : String)
  | rosterUpdated (players : List (PlayerInfo PD))
  | clientInput (sender : NetworkedId) (input : PID)
  | instantiated (transform : NetTransform F) (instantiation : Inst)
deriving DecidableEq, Repr

/-- Mirrors EasyP2PUpdateQueue::push, src/bevy_easy_p2p/src/updates.rs
lines 61-63: append at the back. -/
def pushUpdate (q : List (EasyP2PUpdate F PD PID Inst))
    (u : EasyP2PUpdate F PD PID Inst) : List (EasyP2PUpdate F PD PID Inst) :=
  q ++ [u]

/-- Mirrors EasyP2PUpdateQueue::drain, src/bevy_easy_p2p/src/updates.rs
lines 65-69: Vec::drain(..) yields every element in order and leaves the
queue empty. -/
def drainUpdates (q : List (EasyP2PUpdate F PD PID Inst)) :
    List (EasyP2PUpdate F PD PID Inst) × List (EasyP2PUpdate F PD PID Inst) :=
  (q, [])

/-- The session-level context touched by on_external_lobby_exit:
the EasyP2PState resource, the IsHost flag, the NextState lobby state
and the update queue. -/
structure SessCtx (F PD PID Inst : Type) where
  state : EasyP2PState PD
  host_flag : Bool
  lobby : P2PLobbyState
  updates : List (EasyP2PUpdate F PD PID Inst)
deriving DecidableEq, Repr

/-- Mirrors on_external_lobby_exit, src/bevy_easy_p2p/src/systems.rs
lines 20-55: read all pending OnLobbyExit messages keeping the last
reason; if there was none, do nothing; otherwise clear the host flag,
lobby code and players, set the lobby state to OutOfLobby, and push a
LobbyExited update onto the queue. -/
def on_external_lobby_exit (msgs : List ExitReason)
    (c : SessCtx F PD PID Inst) : SessCtx F PD PID Inst :=
  match msgs.getLast? with
  | none => c
  | some reason =>
      { state :=
          { local_player_data := c.state.local_player_data,
            is_host := false,
            lobby_code := "",
            players := [] },
        host_flag := false,
        lobby := P2PLobbyState.outOfLobby,
        updates := pushUpdate c.updates (.lobbyExited reason) }

/-- A message stream seen by the host roster logic: decoded
ClientDataUpdate messages (OnInternalClientData, carrying the transport
sender id) and OnTransportRosterChanged notifications (the transport's
list of connected client-id strings). -/
inductive HostEvent (PD : Type) where
  | dataUpdate (cid : Nat) (d : PD)
  | rosterChanged (ids : List String)
deriving DecidableEq, Repr

/-- Mirrors the ClientDataUpdate arm of intercept_data_messages,
src/bevy_easy_p2p/src/systems.rs lines 311-319: overwrite the data of
the first roster entry with the sender's client id, if any; insert
nothing. -/
def updateExisting (cid : Nat) (d : PD) :
    List (PlayerInfo PD) → List (PlayerInfo PD)
  | [] => []
  | p :: ps =>
      if p.id = NetworkedId.clientId cid then { p with data := d } :: ps
      else p :: updateExisting cid d ps

/-- Mirrors the roster merge of handle_client_data_update_on_host,
src/bevy_easy_p2p/src/systems.rs lines 436-451: overwrite the first
entry with the sender's id, or push a new entry at the back. -/
def upsertClientData (cid : Nat) (d : PD) (ps : List (PlayerInfo PD)) :
    List (PlayerInfo PD) :=
  if ps.any (fun p => decide (p.id = NetworkedId.clientId cid)) then
    updateExisting cid d ps
  else ps ++ [⟨NetworkedId.clientId cid, d⟩]

/-- The retain predicate of broadcast_roster_on_host,
src/bevy_easy_p2p/src/systems.rs lines 82-85: a ClientId entry is kept
only when its decimal string is in the transport's reported list; Host
entries are kept. -/
def keepPred (ids : List String) (p : PlayerInfo PD) : Bool :=
  match p.id with
  | NetworkedId.clientId cid => decide (toString cid ∈ ids)
  | NetworkedId.host => true

/-- Mirrors the retain of broadcast_roster_on_host,
src/bevy_easy_p2p/src/systems.rs lines 82-85. -/
def pruneByRoster (ids : List String) (ps : List (PlayerInfo PD)) :
    List (PlayerInfo PD) :=
  ps.filter (keepPred ids)

/-- One host-side step over the EasyP2PState resource, with the
HostLobbyInfoUpdate roster payloads broadcast to all clients as output.
A dataUpdate runs the ClientDataUpdate arms of intercept_data_messages
(systems.rs lines 311-319) and then handle_client_data_update_on_host
(lines 432-460), which rebroadcasts get_players(is_host); a
rosterChanged runs broadcast_roster_on_host (lines 78-93), which prunes
and rebroadcasts.  Both source systems return early unless is_host. -/
def hostStep (s : EasyP2PState PD) (e : HostEvent PD) :
    EasyP2PState PD × List (List (PlayerInfo PD)) :=
  if s.is_host then
    match e with
    | .dataUpdate cid d =>
        let players1 := upsertClientData cid d (updateExisting cid d s.players)
        let s1 := { s with players := players1 }
        (s1, [s1.get_players s1.is_host])
    | .rosterChanged ids =>
        let s1 := { s with players := pruneByRoster ids s.players }
        (s1, [s1.get_players s1.is_host])
  else (s, [])

/-- Processing a whole event sequence on the host, accumulating every
broadcast roster payload in order. -/
def runHost (s : EasyP2PState PD) :
    List (HostEvent PD) → EasyP2PState PD × List (List (PlayerInfo PD))
  | [] => (s, [])
  | e :: es =>
      ((runHost (hostStep s e).1 es).1,
       (hostStep s e).2 ++ (runHost (hostStep s e).1 es).2)

/-- The first roster entry for a client id, as
players.iter().find(|p| p.id == ClientId(cid)) reads it. -/
def lookupPlayer (cid : Nat) (ps : List (PlayerInfo PD)) : Option PD :=
  (ps.find? (fun p => decide (p.id = NetworkedId.clientId cid))).map
    (fun p => p.data)

/-- The per-client reference automaton: a data update from this client
stores its payload; a roster notification erases the slot exactly when
the client's decimal id string is absent from the reported list. -/
def clientTrack (cid : Nat) (o : Option PD) : HostEvent PD → Option PD
  | .dataUpdate c d => if c = cid then some d else o
  | .rosterChanged ids => if toString cid ∈ ids then o else none

/-- Mirrors the StateSync arm of intercept_data_messages,
src/bevy_easy_p2p/src/systems.rs lines 351-357: run the registered state
reader on the world when the index is in range, otherwise leave the
world untouched.  W stands for the bevy world affected through Commands;
each reader is the closure pushed by register_state. -/
def interceptStateSync {W : Type} (readers : List (String → W → W)) (index : Nat)
    (payload : String) (w : W) : W :=
  if h : index < readers.length then (readers.get ⟨index, h⟩) payload w else w

/-- Mirrors EmitSyncedEvent::apply, src/bevy_easy_p2p/src/systems.rs
lines 541-552: run the registered event reader when the index is in
range, otherwise leave the world untouched. -/
def emitSyncedEventApply {W : Type} (readers : List (String → W → W)) (index : Nat)
    (payload : String) (w : W) : W :=
  if h : index < readers.length then (readers.get ⟨index, h⟩) payload w else w

/-- Mirrors the EventSync arm of intercept_data_messages,
src/bevy_easy_p2p/src/systems.rs lines 358-366: when the index is in
range, queue an EmitSyncedEvent command (whose apply re-checks the
range); otherwise do nothing. -/
def interceptEventSync {W : Type} (readers : List (String → W → W)) (index : Nat)
    (payload : String) (w : W) : W :=
  if index < readers.length then emitSyncedEventApply readers index payload w
  else w

/-- Mirrors SignalingState, src/bevy_firestore_p2p/src/lib.rs lines
52-65.  The HashSets are modelled as lists (membership is what the code
reads); host_connection_to_client_id is an association list from raw
connection id to client-id string. -/
structure SignalingState where
  room_code : String
  is_host : Bool
  answered_clients : List String
  joined_clients : List String
  client_id : Option String
  client_answer_applied : Bool
  offer_conn : Option Nat
  host_connection_to_client_id : List (Nat × String)
  client_join_pending : Bool
  client_emitted_join : Bool
deriving DecidableEq, Repr

/-- The Default derive of SignalingState. -/
def SignalingState.init : SignalingState :=
  { room_code := "", is_host := false, answered_clients := [],
    joined_clients := [], client_id := none, client_answer_applied := false,
    offer_conn := none, host_connection_to_client_id := [],
    client_join_pending := false, client_emitted_join := false }

/-- The parsed body of the firestore room document: the optional fields
member with its optional offers/answers maps.  Map entries whose value is
not a stringValue are carried as none (the code skips them). -/
structure FsFields where
  offers : Option (List (String × Option String))
  answers : Option (List (String × Option String))
deriving DecidableEq, Repr

/-- Messages written towards the WebRTC layer by the signaling client. -/
inductive RtcWrite where
  | createAnswer (id : Nat) (remote_sdp : String)
  | setRemote (id : Nat) (sdp : String)
deriving DecidableEq, Repr

/-- The host loop over the offers map inside apply_firestore_doc,
src/bevy_firestore_p2p/src/lib.rs lines 582-597: for every offer entry
whose client id is not yet answered and whose value is a string,
allocate a connection id (ConnectionIdAllocator::allocate increments
then returns, lines 27-32), emit CreateAnswer, mark the client answered
and remember the connection-to-client mapping. -/
def applyOffers (entries : List (String × Option String))
    (sig : SignalingState) (alloc : Nat) :
    SignalingState × Nat × List RtcWrite :=
  match entries with
  | [] => (sig, alloc, [])
  | (cid, val) :: rest =>
      if cid ∈ sig.answered_clients then applyOffers rest sig alloc
      else
        match val with
        | some sdp =>
            let id := alloc + 1
            let sig1 :=
              { sig with
                answered_clients := cid :: sig.answered_clients,
                host_connection_to_client_id :=
                  (id, cid) :: sig.host_connection_to_client_id }
            ((applyOffers rest sig1 id).1, (applyOffers rest sig1 id).2.1,
             RtcWrite.createAnswer id sdp :: (applyOffers rest sig1 id).2.2)
        | none => applyOffers rest sig alloc

/-- Mirrors apply_firestore_doc, src/bevy_firestore_p2p/src/lib.rs lines
567-620.  doc = none models a document without a fields member.  On the
host, walk the offers map (applyOffers).  On a client with a generated
client id whose answer has not yet been applied, look up the answers map
under that id; when a string answer is present, emit SetRemote to the
stored offer connection (allocating one only when offer_conn is none,
mirroring unwrap_or_else) and set the client_answer_applied flag. -/
def apply_firestore_doc (doc : Option FsFields) (sig : SignalingState)
    (alloc : Nat) : SignalingState × Nat × List RtcWrite :=
  match doc with
  | none => (sig, alloc, [])
  | some fields =>
      if sig.is_host then
        match fields.offers with
        | some entries => applyOffers entries sig alloc
        | none => (sig, alloc, [])
      else
        match sig.client_id with
        | none => (sig, alloc, [])
        | some cid =>
            if sig.client_answer_applied then (sig, alloc, [])
            else
              match fields.answers with
              | none => (sig, alloc, [])
              | some entries =>
                  match (entries.find? (fun kv => decide (kv.1 = cid))).map
                      (fun kv => kv.2) with
                  | some (some sdp) =>
                      let (target, alloc1) :=
                        match sig.offer_conn with
                        | some t => (t, alloc)
                        | none => (alloc + 1, alloc + 1)
                      ({ sig with client_answer_applied := true }, alloc1,
                       [RtcWrite.setRemote target sdp])
                  | _ => (sig, alloc, [])

/-- Folding apply_firestore_doc over a sequence of fetched documents,
accumulating every WebRTC write in order. -/
def applyDocs (docs : List (Option FsFields)) (sig : SignalingState)
    (alloc : Nat) : SignalingState × Nat × List RtcWrite :=
  match docs with
  | [] => (sig, alloc, [])
  | d :: rest =>
      ((applyDocs rest (apply_firestore_doc d sig alloc).1
          (apply_firestore_doc d sig alloc).2.1).1,
       (applyDocs rest (apply_firestore_doc d sig alloc).1
          (apply_firestore_doc d sig alloc).2.1).2.1,
       (apply_firestore_doc d sig alloc).2.2 ++
         (applyDocs rest (apply_firestore_doc d sig alloc).1
            (apply_firestore_doc d sig alloc).2.1).2.2)

/-- How many SetRemote writes a list contains. -/
def setRemoteCount (ws : List RtcWrite) : Nat :=
  ws.countP (fun w => match w with | RtcWrite.setRemote _ _ => true | _ => false)

/-- Mirrors handle_kick_requests, src/bevy_firestore_p2p/src/lib.rs lines
332-366, over a list of OnKickReq client ids.  Non-host requests are
skipped.  Otherwise the first connection mapped to the kicked client's
decimal id string is looked up and immediately unwrapped
(let conn_raw = to_remove.unwrap(), line 352): none models that panic
when no mapping exists.  On success the mapping and the answered/joined
sets drop the client and the shrunk joined list is emitted as an
OnTransportRosterChanged output. -/
def handle_kick_requests (sig : SignalingState) (kicks : List Nat) :
    Option (SignalingState × List (List String)) :=
  match kicks with
  | [] => some (sig, [])
  | client_id :: rest =>
      if sig.is_host then
        let target := toString client_id
        match (sig.host_connection_to_client_id.find?
            (fun kv => decide (kv.2 = target))).map (fun kv => kv.1) with
        | none => none
        | some conn_raw =>
            let sig1 :=
              { sig with
                host_connection_to_client_id :=
                  sig.host_connection_to_client_id.filter
                    (fun kv => decide (kv.1 ≠ conn_raw)),
                answered_clients :=
                  sig.answered_clients.filter (fun c => decide (c ≠ target)),
                joined_clients :=
                  sig.joined_clients.filter (fun c => decide (c ≠ target)) }
            (handle_kick_requests sig1 rest).map
              (fun pr => (pr.1, sig1.joined_clients :: pr.2))
      else handle_kick_requests sig rest

/-- Mirrors the ClientDataUpdate arm of the older intercept_data_messages,
src/bevy_easy_p2p/src/lib.rs lines 735-743: find the roster entry with
the sender's client id and .unwrap() it before overwriting its data.
none models the panic of unwrap on None when the sender is absent. -/
def interceptClientDataUpdateLib (cid : Nat) (d : PD)
    (players : List (PlayerInfo PD)) : Option (List (PlayerInfo PD)) :=
  if players.any (fun p => decide (p.id = NetworkedId.clientId cid)) then
    some (updateExisting cid d players)
  else none

/-- Mirrors FirestoreShared, src/bevy_firestore_p2p/src/lib.rs lines
67-73; the f64 millisecond clock is modelled in integral milliseconds. -/
structure FirestoreShared where
  in_flight : Bool
  next_allowed_fetch_at_ms : Nat
  not_found_logged : Bool
  room_exists : Bool
deriving DecidableEq, Repr

/-- A document drained from FIRESTORE_INBOX: the host's
(json with __status created) marker, a (json with __status not_found)
marker, serde_json Null, or a real room document. -/
inductive InboxDoc where
  | created
  | notFound
  | nullDoc
  | real (d : FsFields)
deriving DecidableEq, Repr

/-- Mirrors what the fetch task of firestore_pump pushes into the inbox
(src/bevy_firestore_p2p/src/lib.rs lines 560-564): the fetched document,
or serde_json Null when read_room returned None - which http_fetch_json
(lines 129-155) does for every non-ok response, a 404 for a room that
does not exist yet included (line 149-151). -/
def pumpFetchDoc (roomExistsOnServer : Bool) (d : FsFields) : InboxDoc :=
  if roomExistsOnServer then InboxDoc.real d else InboxDoc.nullDoc

/-- The observable outputs of one firestore_pump run. -/
structure PumpOut where
  writes : List RtcWrite
  offersCreated : List Nat
  logs : Nat
  fetchIssued : Bool
deriving DecidableEq, Repr

/-- Processing of one drained document inside the loop of firestore_pump,
src/bevy_firestore_p2p/src/lib.rs lines 512-547: a created marker sets
room_exists; a not_found marker raises next_allowed_fetch_at_ms to
now + 1500 when it is lower and logs once under the not_found_logged
flag; a null document is skipped; a real document runs
apply_firestore_doc and then, for a client whose join is pending,
clears the pending flag, re-arms client_emitted_join, allocates the
offer connection and requests CreateOffer. -/
def pumpProcessDoc (now : Nat) (st : SignalingState × FirestoreShared × Nat × PumpOut)
    (doc : InboxDoc) : SignalingState × FirestoreShared × Nat × PumpOut :=
  let sig := st.1
  let shared := st.2.1
  let alloc := st.2.2.1
  let out := st.2.2.2
  match doc with
  | InboxDoc.created =>
      (sig, { shared with room_exists := true }, alloc, out)
  | InboxDoc.notFound =>
      let shared1 :=
        { shared with
          next_allowed_fetch_at_ms :=
            max shared.next_allowed_fetch_at_ms (now + 1500),
          not_found_logged := true }
      let out1 :=
        if shared.not_found_logged then out
        else { out with logs := out.logs + 1 }
      (sig, shared1, alloc, out1)
  | InboxDoc.nullDoc => (sig, shared, alloc, out)
  | InboxDoc.real d =>
      let sig1 := (apply_firestore_doc (some d) sig alloc).1
      let alloc1 := (apply_firestore_doc (some d) sig alloc).2.1
      let ws := (apply_firestore_doc (some d) sig alloc).2.2
      let out1 := { out with writes := out.writes ++ ws }
      if sig1.client_join_pending && !sig1.is_host then
        let id := alloc1 + 1
        ({ sig1 with client_join_pending := false,
                     client_emitted_join := false,
                     offer_conn := some id },
         shared, id,
         { out1 with offersCreated := out1.offersCreated ++ [id] })
      else (sig1, shared, alloc1, out1)

/-- Mirrors firestore_pump, src/bevy_firestore_p2p/src/lib.rs lines
491-565: return unless a room code is set; drain the inbox, clearing
in_flight when anything arrived; process each drained document; then
issue at most one fetch - only when no fetch is in flight, the clock
has reached next_allowed_fetch_at_ms, and (for a host) the room
creation write has completed - marking in_flight and scheduling the
next fetch 500 ms ahead. -/
def firestore_pump (now : Nat) (inbox : List InboxDoc) (sig : SignalingState)
    (shared : FirestoreShared) (alloc : Nat) :
    SignalingState × FirestoreShared × Nat × PumpOut :=
  if sig.room_code = "" then
    (sig, shared, alloc, ⟨[], [], 0, false⟩)
  else
    let shared0 :=
      if inbox.isEmpty then shared else { shared with in_flight := false }
    let st := inbox.foldl (pumpProcessDoc now) (sig, shared0, alloc, ⟨[], [], 0, false⟩)
    let sig1 := st.1
    let shared1 := st.2.1
    let alloc1 := st.2.2.1
    let out1 := st.2.2.2
    if shared1.in_flight || decide (now < shared1.next_allowed_fetch_at_ms) then
      (sig1, shared1, alloc1, out1)
    else if sig1.is_host && !shared1.room_exists then
      (sig1, shared1, alloc1, out1)
    else
      (sig1,
       { shared1 with in_flight := true,
                      next_allowed_fetch_at_ms := now + 500 },
       alloc1, { out1 with fetchIssued := true })

/-- Messages the transport emits towards the easy_p2p layer. -/
inductive EmitMsg where
  | lobbyCreated (code : String)
  | lobbyJoined (code : String)
  | lobbyEntered (code : String)
  | lobbyExit (reason : ExitReason)
  | rosterChanged (ids : List String)
deriving DecidableEq, Repr

/-- Mirrors log_connection_open for one ConnectionOpen message,
src/bevy_firestore_p2p/src/lib.rs lines 414-437: a host inserts the
mapped client into joined_clients and emits the roster; a client that
has not yet emitted its join emits OnLobbyJoined and OnLobbyEntered for
the stored room code exactly once, guarded by client_emitted_join. -/
def openStep (sig : SignalingState) (id : Nat) :
    SignalingState × List EmitMsg :=
  if sig.is_host then
    match (sig.host_connection_to_client_id.find?
        (fun kv => decide (kv.1 = id))).map (fun kv => kv.2) with
    | some cid =>
        let joined :=
          if cid ∈ sig.joined_clients then sig.joined_clients
          else cid :: sig.joined_clients
        ({ sig with joined_clients := joined },
         [EmitMsg.rosterChanged joined])
    | none => (sig, [])
  else
    if sig.client_emitted_join then (sig, [])
    else
      ({ sig with client_emitted_join := true },
       [EmitMsg.lobbyJoined sig.room_code, EmitMsg.lobbyEntered sig.room_code])

/-- log_connection_open's read loop over a batch of ConnectionOpen
messages (src/bevy_firestore_p2p/src/lib.rs lines 421-436), with all
emitted messages collected in order. -/
def processOpens (sig : SignalingState) :
    List Nat → SignalingState × List EmitMsg
  | [] => (sig, [])
  | id :: rest =>
      ((processOpens (openStep sig id).1 rest).1,
       (openStep sig id).2 ++ (processOpens (openStep sig id).1 rest).2)

/-- The events a single (non-hosting) instance observes: a create or
join request from the consumer, one document drained from the firestore
inbox, and connection open/close reports from the WebRTC layer. -/
inductive ClientEvent where
  | createReq (room : String)
  | joinReq (room : String) (cid : String)
  | inboxDoc (d : InboxDoc)
  | connOpen (id : Nat)
  | connClosed (id : Nat)
deriving DecidableEq, Repr

/-- The state a joining instance carries: the signaling resource, the
shared fetch bookkeeping, the connection id allocator, and the
P2PLobbyState the easy_p2p layer derives from the emitted messages. -/
structure ClientCtx where
  sig : SignalingState
  shared : FirestoreShared
  alloc : Nat
  lobby : P2PLobbyState
deriving DecidableEq, Repr

/-- The Default-initialised FirestoreShared resource. -/
def FirestoreShared.init : FirestoreShared :=
  { in_flight := false, next_allowed_fetch_at_ms := 0,
    not_found_logged := false, room_exists := false }

/-- The freshly initialised instance: default resources, out of lobby. -/
def ClientCtx.init : ClientCtx :=
  { sig := SignalingState.init, shared := FirestoreShared.init,
    alloc := 0, lobby := P2PLobbyState.outOfLobby }

/-- How the easy_p2p layer reacts to one transport message:
OnLobbyEntered moves the lobby state to InLobby (state_update_system,
src/bevy_easy_p2p/src/systems.rs lines 242-246); OnLobbyExit resets the
lobby state (on_external_lobby_exit, lines 20-55) and resets the
transport resources (on_lobby_exit_cleanup,
src/bevy_firestore_p2p/src/lib.rs lines 622-656).  OnLobbyCreated,
OnLobbyJoined and roster messages do not change the lobby state. -/
def applyEmit (c : ClientCtx) (m : EmitMsg) : ClientCtx :=
  match m with
  | EmitMsg.lobbyEntered _ => { c with lobby := P2PLobbyState.inLobby }
  | EmitMsg.lobbyExit _ =>
      { c with lobby := P2PLobbyState.outOfLobby,
               sig := SignalingState.init, shared := FirestoreShared.init }
  | _ => c

/-- One event step of the instance.  createReq and joinReq mirror
handle_create_join_requests (src/bevy_firestore_p2p/src/lib.rs lines
200-239): creating assigns the host role and emits OnLobbyCreated and
OnLobbyEntered at once, while joining only stores role/code/client-id
and raises client_join_pending - no lobby message yet.  inboxDoc runs
firestore_pump on that drained document.  connOpen runs
log_connection_open; connClosed runs handle_connection_closed (lines
439-470): a host drops the mapped client and emits the roster, a client
emits OnLobbyExit(Disconnected). -/
def clientStep (c : ClientCtx) (e : ClientEvent) : ClientCtx × List EmitMsg :=
  match e with
  | ClientEvent.createReq room =>
      ({ c with sig :=
          { c.sig with room_code := room, is_host := true,
                       answered_clients := [] } },
       [EmitMsg.lobbyCreated room, EmitMsg.lobbyEntered room])
  | ClientEvent.joinReq room cid =>
      ({ c with sig :=
          { c.sig with room_code := room, is_host := false,
                       client_id := some cid,
                       client_answer_applied := false,
                       client_join_pending := true } },
       [])
  | ClientEvent.inboxDoc d =>
      ({ c with sig := (firestore_pump 0 [d] c.sig c.shared c.alloc).1,
                shared := (firestore_pump 0 [d] c.sig c.shared c.alloc).2.1,
                alloc := (firestore_pump 0 [d] c.sig c.shared c.alloc).2.2.1 },
       [])
  | ClientEvent.connOpen id =>
      ({ c with sig := (openStep c.sig id).1 }, (openStep c.sig id).2)
  | ClientEvent.connClosed id =>
      if c.sig.is_host then
        match (c.sig.host_connection_to_client_id.find?
            (fun kv => decide (kv.1 = id))).map (fun kv => kv.2) with
        | some cid =>
            let sig1 :=
              { c.sig with
                host_connection_to_client_id :=
                  c.sig.host_connection_to_client_id.filter
                    (fun kv => decide (kv.1 ≠ id)),
                answered_clients :=
                  c.sig.answered_clients.filter (fun x => decide (x ≠ cid)),
                joined_clients :=
                  c.sig.joined_clients.filter (fun x => decide (x ≠ cid)) }
            ({ c with sig := sig1 },
             [EmitMsg.rosterChanged sig1.joined_clients])
        | none => (c, [])
      else (c, [EmitMsg.lobbyExit ExitReason.disconnected])

/-- Running an event sequence: each step's emitted messages are applied
to the lobby state in order, and collected. -/
def runClient (c : ClientCtx) : List ClientEvent → ClientCtx × List EmitMsg
  | [] => (c, [])
  | e :: es =>
      ((runClient ((clientStep c e).2.foldl applyEmit (clientStep c e).1) es).1,
       (clientStep c e).2 ++
         (runClient ((clientStep c e).2.foldl applyEmit (clientStep c e).1) es).2)

/-- Number of OnLobbyEntered messages in a batch. -/
def countEntered (ms : List EmitMsg) : Nat :=
  ms.countP (fun m => match m with | EmitMsg.lobbyEntered _ => true | _ => false)

/-- Number of OnLobbyJoined messages in a batch. -/
def countJoined (ms : List EmitMsg) : Nat :=
  ms.countP (fun m => match m with | EmitMsg.lobbyJoined _ => true | _ => false)

/-- Whether an event is a CreateLobby request. -/
def isCreateEvent : ClientEvent → Bool
  | ClientEvent.createReq _ => true
  | _ => false

/-- Whether an event is a ConnectionOpen report. -/
def isOpenEvent : ClientEvent → Bool
  | ClientEvent.connOpen _ => true
  | _ => false

/-! ## Theorems -/

/-- Claim C10: get_player_data(id) panics (returns none here) exactly
when no player with the given NetworkedId is present in the list
returned by get_players, and when it does return data, the id was the
Host sentinel or a client id currently in the roster, and the returned
data is that player's data. -/
theorem c10_get_player_data_panics_iff_absent {PD : Type}
    (s : EasyP2PState PD) (id : NetworkedId) :
    (get_player_data s id = none ↔
      ∀ p ∈ s.get_players s.is_host, p.id ≠ id) ∧
    (∀ d, get_player_data s id = some d →
      ((id = NetworkedId.host ∨ ∃ p ∈ s.players, p.id = id) ∧
       ∃ p ∈ s.get_players s.is_host, p.id = id ∧ p.data = d)) := by
  constructor
  · unfold get_player_data
    rw [Option.map_eq_none', List.find?_eq_none]
    simp
  · intro d hd
    unfold get_player_data at hd
    rcases Option.map_eq_some'.mp hd with ⟨p, hfind, hdata⟩
    have hmem := List.mem_of_find?_eq_some hfind
    have hid : p.id = id := by simpa using List.find?_some hfind
    refine ⟨?_, p, hmem, hid, hdata⟩
    unfold EasyP2PState.get_players at hmem
    rcases List.mem_append.mp hmem with hl | hr
    · left
      cases hh : s.is_host with
      | false => rw [hh] at hl; simp at hl
      | true =>
          rw [hh] at hl
          simp at hl
          rw [← hid, hl]
    · right
      exact ⟨p, hr, hid⟩

/-- Witness for C10 at a concrete host state. -/
theorem c10_get_player_data_panics_iff_absent_witness :
    get_player_data
      (⟨"h", true, "L", [⟨NetworkedId.clientId 1, "a"⟩]⟩ : EasyP2PState String)
      (NetworkedId.clientId 1) = some "a" ∧
    (NetworkedId.clientId 1 = NetworkedId.host ∨
      ∃ p ∈ (⟨"h", true, "L",
        [⟨NetworkedId.clientId 1, "a"⟩]⟩ : EasyP2PState String).players,
        p.id = NetworkedId.clientId 1) := by
  have h : get_player_data
      (⟨"h", true, "L", [⟨NetworkedId.clientId 1, "a"⟩]⟩ : EasyP2PState String)
      (NetworkedId.clientId 1) = some "a" := by decide
  exact ⟨h, ((c10_get_player_data_panics_iff_absent _ _).2 "a" h).1⟩

/-- Claim C7: a StateSync or EventSync message whose index is at least
the number of registered readers in the corresponding registry is
silently ignored: the world is left untouched (no panic, no state
applied, no event emitted). -/
theorem c7_unknown_sync_index_ignored {W : Type}
    (readers ereaders : List (String → W → W)) (index : Nat)
    (payload : String) (w : W)
    (hs : readers.length ≤ index) (he : ereaders.length ≤ index) :
    interceptStateSync readers index payload w = w ∧
    interceptEventSync ereaders index payload w = w := by
  refine ⟨?_, ?_⟩
  · unfold interceptStateSync
    rw [dif_neg (by omega)]
  · unfold interceptEventSync
    rw [if_neg (by omega)]

/-- Witness for C7 with one registered reader and index 3. -/
theorem c7_unknown_sync_index_ignored_witness :
    interceptStateSync [fun _ n => n + 1] 3 "p" (0 : Nat) = 0 ∧
    interceptEventSync [fun _ n => n + 1] 3 "p" (0 : Nat) = 0 :=
  c7_unknown_sync_index_ignored [fun _ n => n + 1] [fun _ n => n + 1] 3 "p" 0
    (by decide) (by decide)

/-- Claim C4 failing inputs: on the host, handle_kick_requests
(src/bevy_firestore_p2p/src/lib.rs line 352) unwraps None and panics when
the kicked client id (42) has no connection mapping, and the older
intercept_data_messages (src/bevy_easy_p2p/src/lib.rs line 741) unwraps
None and panics on a ClientDataUpdate whose sender (7) is not in the
roster.  none models the panic, so the "never fatal" claim fails here. -/
theorem c4_unmapped_inputs_panic :
    handle_kick_requests
      { SignalingState.init with is_host := true } [42] = none ∧
    interceptClientDataUpdateLib 7 "d" ([] : List (PlayerInfo String)) = none := by
  exact ⟨rfl, rfl⟩

/-- Claim C3 counterexample: an update pushed before the session exit is
still yielded by the drain that follows the exit - the queue is not
cleared; the exit handler appends a LobbyExited event after the old
contents. -/
theorem c3_stale_event_survives_exit :
    (drainUpdates (on_external_lobby_exit [ExitReason.disconnected]
        (⟨⟨(), true, "L", []⟩, true, P2PLobbyState.inLobby,
          [EasyP2PUpdate.hostChat "a"]⟩ :
          SessCtx Unit Unit Unit Unit)).updates).1 =
      [EasyP2PUpdate.hostChat "a",
       EasyP2PUpdate.lobbyExited ExitReason.disconnected] ∧
    EasyP2PUpdate.hostChat "a" ∈
      (drainUpdates (on_external_lobby_exit [ExitReason.disconnected]
        (⟨⟨(), true, "L", []⟩, true, P2PLobbyState.inLobby,
          [EasyP2PUpdate.hostChat "a"]⟩ :
          SessCtx Unit Unit Unit Unit)).updates).1 := by
  exact ⟨by decide, by decide⟩

/-- Claim C3 as amended: on session exit the update queue is NOT
cleared; the exit handler appends a LobbyExited event carrying the last
pending exit reason, every update pushed before the exit is still
yielded by the next drain, and a drain empties the queue (so nothing is
yielded twice). -/
theorem c3_exit_appends_lobby_exited
    {F PD PID Inst : Type} (msgs : List ExitReason)
    (c : SessCtx F PD PID Inst) (u : EasyP2PUpdate F PD PID Inst)
    (hmsgs : msgs ≠ []) :
    (∃ reason, msgs.getLast? = some reason ∧
      (on_external_lobby_exit msgs c).updates =
        c.updates ++ [EasyP2PUpdate.lobbyExited reason]) ∧
    (u ∈ c.updates →
      u ∈ (drainUpdates (on_external_lobby_exit msgs c).updates).1) ∧
    (drainUpdates (on_external_lobby_exit msgs c).updates).2 = [] := by
  have hsome : msgs.getLast?.isSome := by
    rw [List.getLast?_isSome]
    exact hmsgs
  rcases Option.isSome_iff_exists.mp hsome with ⟨reason, hl⟩
  have hun : (on_external_lobby_exit msgs c).updates =
      c.updates ++ [EasyP2PUpdate.lobbyExited reason] := by
    unfold on_external_lobby_exit
    rw [hl]
    rfl
  refine ⟨⟨reason, hl, hun⟩, ?_, rfl⟩
  intro hu
  unfold drainUpdates
  rw [hun]
  exact List.mem_append_left _ hu

/-- Witness for C3's amended statement at a concrete queue. -/
theorem c3_exit_appends_lobby_exited_witness :
    EasyP2PUpdate.hostChat "x" ∈
      (drainUpdates (on_external_lobby_exit [ExitReason.kicked]
        (⟨⟨(), false, "L", []⟩, false, P2PLobbyState.inLobby,
          [EasyP2PUpdate.hostChat "x"]⟩ :
          SessCtx Unit Unit Unit Unit)).updates).1 :=
  (c3_exit_appends_lobby_exited [ExitReason.kicked]
    (⟨⟨(), false, "L", []⟩, false, P2PLobbyState.inLobby,
      [EasyP2PUpdate.hostChat "x"]⟩ : SessCtx Unit Unit Unit Unit)
    (EasyP2PUpdate.hostChat "x") (by decide)).2.1 (by decide)

/-- Registering a different type leaves a type's index unchanged. -/
theorem register_lookup_ne (r : SyncRegister) (t t2 : Nat) (h : t2 ≠ t) :
    (r.register t2).lookupIdx t = r.lookupIdx t := by
  unfold SyncRegister.register
  by_cases hp : (r.lookupIdx t2).isSome
  · rw [if_pos hp]
  · rw [if_neg hp]
    unfold SyncRegister.lookupIdx
    rw [List.find?_cons_of_neg]
    simp [h]

/-- Registering a list of other types leaves a type's index unchanged. -/
theorem registerAll_lookup_ne (l : List Nat) (r : SyncRegister) (t : Nat)
    (h : ∀ t2 ∈ l, t2 ≠ t) :
    (registerAll r l).lookupIdx t = r.lookupIdx t := by
  induction l generalizing r with
  | nil => rfl
  | cons a l ih =>
      have hstep : registerAll r (a :: l) = registerAll (r.register a) l := rfl
      rw [hstep, ih (r.register a) (fun t2 ht2 => h t2 (List.mem_cons_of_mem a ht2)),
        register_lookup_ne r t a (h a (List.mem_cons_self a l))]

/-- A fresh registration records the current counter as the type's index
and advances the counter with wrapping_add(1). -/
theorem register_fresh (r : SyncRegister) (t : Nat)
    (h : r.lookupIdx t = none) :
    (r.register t).lookupIdx t = some r.counter ∧
    (r.register t).counter = (r.counter + 1) % 256 := by
  unfold SyncRegister.register
  rw [if_neg (by simp [h])]
  constructor
  · unfold SyncRegister.lookupIdx
    rw [List.find?_cons_of_pos]
    · rfl
    · simp
  · rfl

/-- Registering a Nodup list of fresh types from a register whose u8
counter is in range assigns the i-th type the index
(counter + i) mod 256. -/
theorem registerAll_get_index (l : List Nat) (r : SyncRegister)
    (hnd : l.Nodup) (hfresh : ∀ t ∈ l, r.lookupIdx t = none)
    (hc : r.counter < 256) :
    ∀ i (h : i < l.length),
      (registerAll r l).lookupIdx (l.get ⟨i, h⟩) =
        some ((r.counter + i) % 256) := by
  induction l generalizing r with
  | nil => intro i h; simp at h
  | cons a l ih =>
      intro i h
      have hfa : r.lookupIdx a = none := hfresh a (List.mem_cons_self a l)
      have hanl : a ∉ l := (List.nodup_cons.mp hnd).1
      have hstep : registerAll r (a :: l) = registerAll (r.register a) l := rfl
      have hfreshl : ∀ t ∈ l, (r.register a).lookupIdx t = none := by
        intro t ht
        rw [register_lookup_ne r t a (fun he => hanl (he ▸ ht))]
        exact hfresh t (List.mem_cons_of_mem a ht)
      match i with
      | 0 =>
          rw [hstep]
          show (registerAll (r.register a) l).lookupIdx a = _
          rw [registerAll_lookup_ne l (r.register a) a
            (fun t2 ht2 he => hanl (he ▸ ht2)),
            (register_fresh r a hfa).1]
          rw [Nat.add_zero, Nat.mod_eq_of_lt hc]
      | Nat.succ j =>
          have hj : j < l.length := by
            simpa using Nat.lt_of_succ_lt_succ h
          have hrc : (r.register a).counter < 256 := by
            rw [(register_fresh r a hfa).2]
            exact Nat.mod_lt _ (by omega)
          have := ih (r.register a) (List.nodup_cons.mp hnd).2 hfreshl hrc j hj
          rw [hstep]
          show (registerAll (r.register a) l).lookupIdx (l.get ⟨j, hj⟩) = _
          rw [this, (register_fresh r a hfa).2, Nat.mod_add_mod]
          congr 2
          omega

/-- Claim C5 counterexample: registering the 257 distinct types
0,...,256 into an empty register does not assign the indices 0..256 in
order - the u8 counter wraps, so the 257th type (type id 256) receives
index 0, which is also the index of the first type: an index is reused
within the session. -/
theorem c5_index_reused_after_256 :
    (registerAll SyncRegister.empty (List.range 257)).lookupIdx 256 = some 0 ∧
    (registerAll SyncRegister.empty (List.range 257)).lookupIdx 0 = some 0 ∧
    (256 : Nat) ≠ 0 := by
  have hmain := registerAll_get_index (List.range 257) SyncRegister.empty
    (List.nodup_range 257) (fun t _ => rfl) (by decide)
  have h256 := hmain 256 (by simp)
  have h0 := hmain 0 (by simp)
  rw [List.get_range] at h256 h0
  refine ⟨?_, ?_, by decide⟩
  · simpa using h256
  · simpa using h0

/-- Claim C5 as amended: re-registering an already-registered type is a
complete no-op in either registry (same index, no reader appended,
counter unchanged), and registering N distinct types into a fresh
registry assigns them exactly the indices 0..N-1 in registration order
provided N is at most 256; beyond that the u8 counter wraps and indices
repeat modulo 256. -/
theorem c5_registry_indices (r : SyncRegister) (t : Nat)
    (l : List Nat) (hnd : l.Nodup) (hlen : l.length ≤ 256) :
    ((r.lookupIdx t).isSome →
      register_state r t = r ∧ register_event r t = r) ∧
    (∀ i (h : i < l.length),
      (registerAll SyncRegister.empty l).lookupIdx (l.get ⟨i, h⟩) = some i) := by
  constructor
  · intro hsome
    unfold register_state register_event SyncRegister.register
    rw [if_pos hsome]
    exact ⟨rfl, rfl⟩
  · intro i h
    have := registerAll_get_index l SyncRegister.empty hnd
      (fun t2 _ => rfl) (by decide) i h
    have hc : SyncRegister.empty.counter = 0 := rfl
    rwa [hc, Nat.zero_add, Nat.mod_eq_of_lt (by omega)] at this

/-- Witness for C5's amended statement: duplicate registration is a
no-op and two fresh types receive indices 0 and 1. -/
theorem c5_registry_indices_witness :
    register_state (registerAll SyncRegister.empty [5]) 5 =
      registerAll SyncRegister.empty [5] ∧
    (registerAll SyncRegister.empty [10, 20]).lookupIdx 20 = some 1 := by
  have h := c5_registry_indices (registerAll SyncRegister.empty [5]) 5
    [10, 20] (by decide) (by decide)
  exact ⟨(h.1 (by decide)).1, h.2 1 (by decide)⟩

/-- The lookup at a matching head entry yields its data. -/
theorem lookupPlayer_cons_eq {PD : Type} (cid : Nat) (p : PlayerInfo PD)
    (ps : List (PlayerInfo PD)) (h : p.id = NetworkedId.clientId cid) :
    lookupPlayer cid (p :: ps) = some p.data := by
  unfold lookupPlayer
  rw [List.find?_cons_of_pos _ (by simpa using h)]
  rfl

/-- The lookup skips a non-matching head entry. -/
theorem lookupPlayer_cons_ne {PD : Type} (cid : Nat) (p : PlayerInfo PD)
    (ps : List (PlayerInfo PD)) (h : ¬p.id = NetworkedId.clientId cid) :
    lookupPlayer cid (p :: ps) = lookupPlayer cid ps := by
  unfold lookupPlayer
  rw [List.find?_cons_of_neg _ (by simpa using h)]

/-- Overwriting a player's data never changes which ids are present. -/
theorem any_updateExisting {PD : Type} (c : Nat) (d : PD) (x : NetworkedId) :
    ∀ ps : List (PlayerInfo PD),
      (updateExisting c d ps).any (fun p => decide (p.id = x)) =
        ps.any (fun p => decide (p.id = x))
  | [] => rfl
  | p :: ps => by
      unfold updateExisting
      by_cases hp : p.id = NetworkedId.clientId c
      · rw [if_pos hp]
        simp
      · rw [if_neg hp]
        simp [any_updateExisting c d x ps]

/-- updateExisting does not affect the lookup of a different client. -/
theorem lookupPlayer_updateExisting_ne {PD : Type} (c cid : Nat) (d : PD)
    (h : c ≠ cid) :
    ∀ ps : List (PlayerInfo PD),
      lookupPlayer cid (updateExisting c d ps) = lookupPlayer cid ps
  | [] => rfl
  | p :: ps => by
      unfold updateExisting
      by_cases hp : p.id = NetworkedId.clientId c
      · rw [if_pos hp]
        have hne : ¬p.id = NetworkedId.clientId cid := by
          rw [hp]
          intro hx
          exact h (by injection hx)
        rw [lookupPlayer_cons_ne cid ⟨p.id, d⟩ ps hne,
          lookupPlayer_cons_ne cid p ps hne]
      · rw [if_neg hp]
        by_cases hq : p.id = NetworkedId.clientId cid
        · rw [lookupPlayer_cons_eq cid p _ hq, lookupPlayer_cons_eq cid p ps hq]
        · rw [lookupPlayer_cons_ne cid p _ hq, lookupPlayer_cons_ne cid p ps hq]
          exact lookupPlayer_updateExisting_ne c cid d h ps

/-- updateExisting overwrites the looked-up data when the client is
present and does nothing when it is absent. -/
theorem lookupPlayer_updateExisting_eq {PD : Type} (c : Nat) (d : PD) :
    ∀ ps : List (PlayerInfo PD),
      lookupPlayer c (updateExisting c d ps) =
        (lookupPlayer c ps).map (fun _ => d)
  | [] => rfl
  | p :: ps => by
      unfold updateExisting
      by_cases hp : p.id = NetworkedId.clientId c
      · rw [if_pos hp]
        rw [lookupPlayer_cons_eq c ⟨p.id, d⟩ ps hp,
          lookupPlayer_cons_eq c p ps hp]
        rfl
      · rw [if_neg hp]
        rw [lookupPlayer_cons_ne c p _ hp, lookupPlayer_cons_ne c p ps hp]
        exact lookupPlayer_updateExisting_eq c d ps

/-- A client id is present exactly when its lookup succeeds. -/
theorem any_eq_lookupPlayer_isSome {PD : Type} (c : Nat) :
    ∀ ps : List (PlayerInfo PD),
      ps.any (fun p => decide (p.id = NetworkedId.clientId c)) =
        (lookupPlayer c ps).isSome
  | [] => rfl
  | p :: ps => by
      by_cases hp : p.id = NetworkedId.clientId c
      · rw [lookupPlayer_cons_eq c p ps hp]
        simp [hp]
      · rw [lookupPlayer_cons_ne c p ps hp]
        rw [List.any_cons]
        have hfb : (decide (p.id = NetworkedId.clientId c)) = false := by
          simpa using hp
        rw [hfb, Bool.false_or]
        exact any_eq_lookupPlayer_isSome c ps

/-- Appending a fresh entry at the back: the lookup of that client
succeeds when nothing earlier matched; other clients are unaffected. -/
theorem lookupPlayer_append_single {PD : Type} (c cid : Nat) (d : PD) :
    ∀ ps : List (PlayerInfo PD),
      lookupPlayer cid (ps ++ [⟨NetworkedId.clientId c, d⟩]) =
        match lookupPlayer cid ps with
        | some x => some x
        | none => if c = cid then some d else none
  | [] => by
      by_cases hc : c = cid
      · rw [List.nil_append,
          lookupPlayer_cons_eq cid ⟨NetworkedId.clientId c, d⟩ [] (by rw [hc])]
        simp [lookupPlayer, hc]
      · rw [List.nil_append,
          lookupPlayer_cons_ne cid ⟨NetworkedId.clientId c, d⟩ [] (by simp [hc])]
        simp [lookupPlayer, hc]
  | p :: ps => by
      by_cases hp : p.id = NetworkedId.clientId cid
      · rw [List.cons_append, lookupPlayer_cons_eq cid p _ hp,
          lookupPlayer_cons_eq cid p ps hp]
      · rw [List.cons_append, lookupPlayer_cons_ne cid p _ hp,
          lookupPlayer_cons_ne cid p ps hp]
        exact lookupPlayer_append_single c cid d ps

/-- When a client is nowhere in the roster, updateExisting is the
identity. -/
theorem updateExisting_of_not_any {PD : Type} (c : Nat) (d : PD) :
    ∀ ps : List (PlayerInfo PD),
      ps.any (fun p => decide (p.id = NetworkedId.clientId c)) = false →
      updateExisting c d ps = ps
  | [] => fun _ => rfl
  | p :: ps => by
      intro h
      simp only [List.any_cons, Bool.or_eq_false_iff] at h
      unfold updateExisting
      rw [if_neg (by simpa using h.1), updateExisting_of_not_any c d ps h.2]

/-- The combined per-message effect of the two host systems on one
ClientDataUpdate: the sender's entry now holds the new data, other
entries are untouched. -/
theorem lookupPlayer_dataUpdate {PD : Type} (c cid : Nat) (d : PD)
    (ps : List (PlayerInfo PD)) :
    lookupPlayer cid (upsertClientData c d (updateExisting c d ps)) =
      if c = cid then some d else lookupPlayer cid ps := by
  unfold upsertClientData
  rw [any_updateExisting]
  by_cases hany : ps.any (fun p => decide (p.id = NetworkedId.clientId c)) = true
  · rw [if_pos hany]
    by_cases hc : c = cid
    · subst hc
      rw [lookupPlayer_updateExisting_eq, lookupPlayer_updateExisting_eq]
      rw [any_eq_lookupPlayer_isSome] at hany
      rcases Option.isSome_iff_exists.mp hany with ⟨x, hx⟩
      rw [hx]
      simp
    · rw [lookupPlayer_updateExisting_ne c cid d hc,
        lookupPlayer_updateExisting_ne c cid d hc, if_neg hc]
  · rw [if_neg hany]
    have hfalse : ps.any (fun p => decide (p.id = NetworkedId.clientId c)) = false := by
      revert hany
      cases ps.any (fun p => decide (p.id = NetworkedId.clientId c)) <;> simp
    rw [updateExisting_of_not_any c d ps hfalse, lookupPlayer_append_single]
    rw [any_eq_lookupPlayer_isSome] at hfalse
    by_cases hc : c = cid
    · subst hc
      have hnone : lookupPlayer c ps = none :=
        Option.not_isSome_iff_eq_none.mp (by simp [hfalse])
      rw [hnone]
    · cases hlk : lookupPlayer cid ps with
      | none => simp [hc]
      | some x => simp [hc]

/-- Pruning keeps a client's entry exactly when its decimal id string is
in the reported list. -/
theorem lookupPlayer_prune {PD : Type} (cid : Nat) (ids : List String) :
    ∀ ps : List (PlayerInfo PD),
      lookupPlayer cid (pruneByRoster ids ps) =
        if toString cid ∈ ids then lookupPlayer cid ps else none
  | [] => by
      by_cases hmem : toString cid ∈ ids <;>
        simp [pruneByRoster, lookupPlayer, hmem]
  | p :: ps => by
      have ih : lookupPlayer cid (pruneByRoster ids ps) =
          if toString cid ∈ ids then lookupPlayer cid ps else none :=
        lookupPlayer_prune cid ids ps
      unfold pruneByRoster at ih ⊢
      cases hid : p.id with
      | host =>
          rw [List.filter_cons_of_pos (by simp [keepPred, hid])]
          have hne : ¬p.id = NetworkedId.clientId cid := by
            rw [hid]
            simp
          rw [lookupPlayer_cons_ne cid p _ hne, ih]
          by_cases hmem : toString cid ∈ ids
          · rw [if_pos hmem, if_pos hmem, lookupPlayer_cons_ne cid p ps hne]
          · rw [if_neg hmem, if_neg hmem]
      | clientId c =>
          by_cases hc : c = cid
          · subst hc
            by_cases hmem : toString c ∈ ids
            · rw [List.filter_cons_of_pos (by simp [keepPred, hid, hmem])]
              rw [lookupPlayer_cons_eq c p _ hid, if_pos hmem,
                lookupPlayer_cons_eq c p ps hid]
            · rw [List.filter_cons_of_neg (by simp [keepPred, hid, hmem])]
              rw [ih, if_neg hmem, if_neg hmem]
          · have hne : ¬p.id = NetworkedId.clientId cid := by
              rw [hid]
              intro hx
              exact hc (by injection hx)
            rw [List.filter_cons]
            by_cases hkeep : keepPred ids p = true
            · rw [if_pos hkeep, lookupPlayer_cons_ne cid p _ hne, ih]
              by_cases hmem : toString cid ∈ ids
              · rw [if_pos hmem, if_pos hmem, lookupPlayer_cons_ne cid p ps hne]
              · rw [if_neg hmem, if_neg hmem]
            · rw [if_neg hkeep, ih]
              by_cases hmem : toString cid ∈ ids
              · rw [if_pos hmem, if_pos hmem, lookupPlayer_cons_ne cid p ps hne]
              · rw [if_neg hmem, if_neg hmem]

/-- hostStep never changes the is_host flag. -/
theorem hostStep_is_host {PD : Type} (s : EasyP2PState PD) (e : HostEvent PD) :
    (hostStep s e).1.is_host = s.is_host := by
  unfold hostStep
  by_cases hh : s.is_host
  · rw [if_pos hh]
    cases e <;> rfl
  · rw [if_neg hh]

/-- The host roster evolves, per client id, exactly like the per-client
automaton clientTrack. -/
theorem lookupPlayer_runHost {PD : Type} (evs : List (HostEvent PD)) :
    ∀ s : EasyP2PState PD, s.is_host = true → ∀ cid,
      lookupPlayer cid ((runHost s evs).1).players =
        evs.foldl (clientTrack cid) (lookupPlayer cid s.players) := by
  induction evs with
  | nil => intro s _ cid; rfl
  | cons e es ih =>
      intro s hh cid
      have hh1 : (hostStep s e).1.is_host = true := by
        rw [hostStep_is_host, hh]
      have hfold : lookupPlayer cid (hostStep s e).1.players =
          clientTrack cid (lookupPlayer cid s.players) e := by
        unfold hostStep
        rw [if_pos hh]
        cases e with
        | dataUpdate c d =>
            show lookupPlayer cid
                (upsertClientData c d (updateExisting c d s.players)) = _
            rw [lookupPlayer_dataUpdate]
            rfl
        | rosterChanged ids =>
            show lookupPlayer cid (pruneByRoster ids s.players) = _
            rw [lookupPlayer_prune]
            rfl
      calc lookupPlayer cid ((runHost s (e :: es)).1).players
          = lookupPlayer cid ((runHost (hostStep s e).1 es).1).players := by
            simp only [runHost]
        _ = List.foldl (clientTrack cid)
              (lookupPlayer cid (hostStep s e).1.players) es :=
            ih (hostStep s e).1 hh1 cid
        _ = List.foldl (clientTrack cid)
              (clientTrack cid (lookupPlayer cid s.players) e) es := by
            rw [hfold]
        _ = List.foldl (clientTrack cid) (lookupPlayer cid s.players) (e :: es) :=
            rfl

/-- Claim C2 counterexample: on a host with an empty roster, a transport
notification reporting no connected ids followed by a data update from
client 2 leaves client 2 in the roster even though the most recent
transport notification reported the empty set - the roster does not
contain exactly the reported ids. -/
theorem c2_roster_not_exactly_reported :
    ((runHost (⟨"h", true, "L", []⟩ : EasyP2PState String)
        [HostEvent.rosterChanged [], HostEvent.dataUpdate 2 "x"]).1).players =
      [⟨NetworkedId.clientId 2, "x"⟩] ∧
    toString 2 ∉ ([] : List String) := by
  exact ⟨by decide, by decide⟩

/-- Claim C2 as amended: on the host, each client id's roster entry
evolves exactly like the per-client automaton - a data update from that
client inserts or overwrites its entry with the new (most recent) data,
and a transport roster notification deletes exactly the entries whose id
is absent from the reported list (it never inserts missing reported
ids); furthermore every roster notification prunes the roster and
rebroadcasts the pruned roster (host entry first) to all clients. -/
theorem c2_roster_tracks_updates_and_pruning {PD : Type}
    (s : EasyP2PState PD) (evs : List (HostEvent PD)) (cid : Nat)
    (ids : List String) (hh : s.is_host = true) :
    (lookupPlayer cid ((runHost s evs).1).players =
      evs.foldl (clientTrack cid) (lookupPlayer cid s.players)) ∧
    hostStep s (HostEvent.rosterChanged ids) =
      ({ s with players := pruneByRoster ids s.players },
       [⟨NetworkedId.host, s.local_player_data⟩ ::
         pruneByRoster ids s.players]) := by
  constructor
  · exact lookupPlayer_runHost evs s hh cid
  · unfold hostStep
    rw [if_pos hh]
    show ({ s with players := pruneByRoster ids s.players },
        [({ s with players := pruneByRoster ids s.players } :
            EasyP2PState PD).get_players s.is_host]) = _
    rw [hh]
    unfold EasyP2PState.get_players
    simp

/-- Witness for C2's amended statement on a concrete host trace. -/
theorem c2_roster_tracks_updates_and_pruning_witness :
    lookupPlayer 3 ((runHost (⟨"h", true, "", [⟨NetworkedId.clientId 3, "z"⟩]⟩ :
        EasyP2PState String) [HostEvent.dataUpdate 3 "w"]).1).players =
      List.foldl (clientTrack 3)
        (lookupPlayer 3 [⟨NetworkedId.clientId 3, "z"⟩])
        [HostEvent.dataUpdate 3 "w"] :=
  (c2_roster_tracks_updates_and_pruning
    (⟨"h", true, "", [⟨NetworkedId.clientId 3, "z"⟩]⟩ : EasyP2PState String)
    [HostEvent.dataUpdate 3 "w"] 3 [] rfl).1

/-- One apply_firestore_doc call on a client either changes nothing at
all, or applies the answer: it emits exactly one SetRemote, sets the
applied flag, and could only do so because the flag was clear. -/
theorem apply_doc_client_cases (doc : Option FsFields) (sig : SignalingState)
    (alloc : Nat) (hh : sig.is_host = false) :
    (apply_firestore_doc doc sig alloc).1.is_host = false ∧
    (apply_firestore_doc doc sig alloc = (sig, alloc, []) ∨
     ((apply_firestore_doc doc sig alloc).1.client_answer_applied = true ∧
      setRemoteCount (apply_firestore_doc doc sig alloc).2.2 = 1 ∧
      sig.client_answer_applied = false)) := by
  cases doc with
  | none => exact ⟨hh, Or.inl rfl⟩
  | some fields =>
      cases hcid : sig.client_id with
      | none =>
          refine ⟨?_, Or.inl ?_⟩ <;> simp [apply_firestore_doc, hh, hcid]
      | some cid =>
          by_cases happ : sig.client_answer_applied = true
          · refine ⟨?_, Or.inl ?_⟩ <;>
              simp [apply_firestore_doc, hh, hcid, happ]
          · rw [Bool.not_eq_true] at happ
            cases hans : fields.answers with
            | none =>
                refine ⟨?_, Or.inl ?_⟩ <;>
                  simp [apply_firestore_doc, hh, hcid, happ, hans]
            | some entries =>
                cases hfind : (entries.find? (fun kv => decide (kv.1 = cid))).map
                    (fun kv => kv.2) with
                | none =>
                    refine ⟨?_, Or.inl ?_⟩ <;>
                      simp [apply_firestore_doc, hh, hcid, happ, hans, hfind]
                | some v =>
                    cases v with
                    | none =>
                        refine ⟨?_, Or.inl ?_⟩ <;>
                          simp [apply_firestore_doc, hh, hcid, happ, hans, hfind]
                    | some sdp =>
                        cases hoc : sig.offer_conn with
                        | none =>
                            refine ⟨?_, Or.inr ⟨?_, ?_, ?_⟩⟩ <;>
                              simp [apply_firestore_doc, setRemoteCount,
                                hh, hcid, happ, hans, hfind, hoc]
                        | some t =>
                            refine ⟨?_, Or.inr ⟨?_, ?_, ?_⟩⟩ <;>
                              simp [apply_firestore_doc, setRemoteCount,
                                hh, hcid, happ, hans, hfind, hoc]

/-- Once the applied flag is set, a client's document processing is the
identity over any further document sequence. -/
theorem applyDocs_applied_noop (docs : List (Option FsFields)) :
    ∀ (sig : SignalingState) (alloc : Nat), sig.is_host = false →
      sig.client_answer_applied = true →
      applyDocs docs sig alloc = (sig, alloc, []) := by
  induction docs with
  | nil => intro sig alloc _ _; rfl
  | cons d rest ih =>
      intro sig alloc hh happ
      have hstep : apply_firestore_doc d sig alloc = (sig, alloc, []) := by
        rcases apply_doc_client_cases d sig alloc hh with ⟨_, h | ⟨_, _, hfalse⟩⟩
        · exact h
        · rw [happ] at hfalse
          cases hfalse
      simp only [applyDocs]
      rw [hstep]
      simp [ih sig alloc hh happ]

/-- A client emits at most one SetRemote over any document sequence. -/
theorem applyDocs_setRemote_le_one (docs : List (Option FsFields)) :
    ∀ (sig : SignalingState) (alloc : Nat), sig.is_host = false →
      setRemoteCount (applyDocs docs sig alloc).2.2 ≤ 1 := by
  induction docs with
  | nil =>
      intro sig alloc _
      simp [applyDocs, setRemoteCount]
  | cons d rest ih =>
      intro sig alloc hh
      rcases apply_doc_client_cases d sig alloc hh with
        ⟨hh1, hcase | ⟨happ1, hcnt, _⟩⟩
      · simp only [applyDocs]
        rw [hcase]
        simpa using ih sig alloc hh
      · simp only [applyDocs]
        rw [applyDocs_applied_noop rest _ _ hh1 happ1]
        simpa [setRemoteCount] using Nat.le_of_eq hcnt

/-- Claim C6: on the signaling client, a room-document answer is applied
at most once.  Once the client_answer_applied flag is set, processing
any further fetched document (the same answer SDP included) is a
complete no-op - no state change, no allocator change, no WebRTC write;
and over any sequence of fetched documents at most one SetRemote
(remote-description application) is ever emitted. -/
theorem c6_answer_applied_at_most_once (doc : Option FsFields)
    (docs : List (Option FsFields)) (sig : SignalingState) (alloc : Nat)
    (hh : sig.is_host = false) :
    (sig.client_answer_applied = true →
      apply_firestore_doc doc sig alloc = (sig, alloc, [])) ∧
    setRemoteCount (applyDocs docs sig alloc).2.2 ≤ 1 := by
  constructor
  · intro happ
    rcases apply_doc_client_cases doc sig alloc hh with ⟨_, h | ⟨_, _, hfalse⟩⟩
    · exact h
    · rw [happ] at hfalse
      cases hfalse
  · exact applyDocs_setRemote_le_one docs sig alloc hh

/-- Witness for C6: a client that already applied its answer ignores a
document still carrying that answer. -/
theorem c6_answer_applied_at_most_once_witness :
    apply_firestore_doc (some ⟨some [], some [("9", some "sdp")]⟩)
      { SignalingState.init with
        room_code := "R", client_id := some "9",
        client_answer_applied := true } 0 =
      ({ SignalingState.init with
         room_code := "R", client_id := some "9",
         client_answer_applied := true }, 0, []) ∧
    setRemoteCount (applyDocs
      [some ⟨some [], some [("9", some "sdp")]⟩,
       some ⟨some [], some [("9", some "sdp")]⟩]
      { SignalingState.init with
        room_code := "R", client_id := some "9",
        client_answer_applied := false } 0).2.2 ≤ 1 := by
  constructor
  · exact (c6_answer_applied_at_most_once
      (some ⟨some [], some [("9", some "sdp")]⟩) []
      { SignalingState.init with
        room_code := "R", client_id := some "9",
        client_answer_applied := true } 0 rfl).1 rfl
  · exact (c6_answer_applied_at_most_once none
      [some ⟨some [], some [("9", some "sdp")]⟩,
       some ⟨some [], some [("9", some "sdp")]⟩]
      { SignalingState.init with
        room_code := "R", client_id := some "9",
        client_answer_applied := false } 0 rfl).2

/-- A client that has already emitted its join ignores further
ConnectionOpen reports. -/
theorem openStep_emitted (sig : SignalingState) (id : Nat)
    (hh : sig.is_host = false) (he : sig.client_emitted_join = true) :
    openStep sig id = (sig, []) := by
  unfold openStep
  rw [if_neg (by rw [hh]; simp), if_pos he]

/-- A client that has not yet emitted its join emits OnLobbyJoined and
OnLobbyEntered and sets the guard flag on the first ConnectionOpen. -/
theorem openStep_first (sig : SignalingState) (id : Nat)
    (hh : sig.is_host = false) (he : sig.client_emitted_join = false) :
    openStep sig id =
      ({ sig with client_emitted_join := true },
       [EmitMsg.lobbyJoined sig.room_code,
        EmitMsg.lobbyEntered sig.room_code]) := by
  unfold openStep
  rw [if_neg (by rw [hh]; simp), if_neg (by rw [he]; simp)]

/-- With the guard flag set, a whole batch of ConnectionOpen reports is
a no-op for a client. -/
theorem processOpens_emitted (opens : List Nat) :
    ∀ sig : SignalingState, sig.is_host = false →
      sig.client_emitted_join = true →
      processOpens sig opens = (sig, []) := by
  induction opens with
  | nil => intro sig _ _; rfl
  | cons id rest ih =>
      intro sig hh he
      simp only [processOpens]
      rw [openStep_emitted sig id hh he]
      simp [ih sig hh he]

/-- Exactly-once join emission over any nonempty batch of ConnectionOpen
reports, and none at all once the guard flag is set. -/
theorem processOpens_counts (opens : List Nat) :
    ∀ sig : SignalingState, sig.is_host = false →
      ((sig.client_emitted_join = true →
        countJoined (processOpens sig opens).2 = 0 ∧
        countEntered (processOpens sig opens).2 = 0) ∧
       (sig.client_emitted_join = false → opens ≠ [] →
        countJoined (processOpens sig opens).2 = 1 ∧
        countEntered (processOpens sig opens).2 = 1)) := by
  induction opens with
  | nil =>
      intro sig _
      refine ⟨fun _ => ⟨rfl, rfl⟩, fun _ hne => absurd rfl hne⟩
  | cons id rest ih =>
      intro sig hh
      constructor
      · intro he
        rw [processOpens_emitted (id :: rest) sig hh he]
        exact ⟨rfl, rfl⟩
      · intro he _
        simp only [processOpens]
        rw [openStep_first sig id hh he]
        have hrest := (ih { sig with client_emitted_join := true }
          (by simpa using hh)).1 rfl
        unfold countJoined countEntered at hrest ⊢
        rw [List.countP_append, List.countP_append, hrest.1, hrest.2]
        exact ⟨rfl, rfl⟩

/-- Folding transport messages that contain no OnLobbyEntered never
moves the lobby state to InLobby. -/
theorem foldl_applyEmit_no_entered (ms : List EmitMsg) :
    ∀ c : ClientCtx, (∀ code, EmitMsg.lobbyEntered code ∉ ms) →
      c.lobby ≠ P2PLobbyState.inLobby →
      (ms.foldl applyEmit c).lobby ≠ P2PLobbyState.inLobby := by
  induction ms with
  | nil => intro c _ hc; exact hc
  | cons m rest ih =>
      intro c hne hc
      rw [List.foldl_cons]
      refine ih (applyEmit c m) (fun code hmem => hne code (by simp [hmem])) ?_
      cases m with
      | lobbyEntered code => exact absurd (List.mem_cons_self _ _) (hne code)
      | lobbyExit r => simp [applyEmit]
      | lobbyCreated code => simpa [applyEmit] using hc
      | lobbyJoined code => simpa [applyEmit] using hc
      | rosterChanged ids => simpa [applyEmit] using hc

/-- A step on an event that is neither a CreateLobby request nor a
ConnectionOpen emits no OnLobbyEntered and leaves the lobby state of the
context untouched. -/
theorem clientStep_no_entered (c : ClientCtx) (e : ClientEvent)
    (hc : isCreateEvent e = false) (ho : isOpenEvent e = false) :
    (∀ code, EmitMsg.lobbyEntered code ∉ (clientStep c e).2) ∧
    (clientStep c e).1.lobby = c.lobby := by
  cases e with
  | createReq room => cases hc
  | connOpen id => cases ho
  | joinReq room cid => exact ⟨by simp [clientStep], rfl⟩
  | inboxDoc d => exact ⟨by simp [clientStep], rfl⟩
  | connClosed id =>
      by_cases hhost : c.sig.is_host = true
      · cases hfind : (c.sig.host_connection_to_client_id.find?
            (fun kv => decide (kv.1 = id))).map (fun kv => kv.2) with
        | none =>
            refine ⟨?_, ?_⟩ <;> simp [clientStep, hhost, hfind]
        | some cid =>
            refine ⟨?_, ?_⟩ <;> simp [clientStep, hhost, hfind]
      · rw [Bool.not_eq_true] at hhost
        refine ⟨?_, ?_⟩ <;> simp [clientStep, hhost]

/-- Without a ConnectionOpen (and without hosting), the lobby state
never becomes InLobby. -/
theorem runClient_no_open_stays_out (evs : List ClientEvent) :
    ∀ c : ClientCtx,
      (∀ e ∈ evs, isCreateEvent e = false) →
      (∀ e ∈ evs, isOpenEvent e = false) →
      c.lobby ≠ P2PLobbyState.inLobby →
      (runClient c evs).1.lobby ≠ P2PLobbyState.inLobby := by
  induction evs with
  | nil => intro c _ _ hc; exact hc
  | cons e rest ih =>
      intro c hcr hop hc
      have hstep := clientStep_no_entered c e
        (hcr e (List.mem_cons_self e rest)) (hop e (List.mem_cons_self e rest))
      simp only [runClient]
      refine ih _ (fun x hx => hcr x (List.mem_cons_of_mem e hx))
        (fun x hx => hop x (List.mem_cons_of_mem e hx)) ?_
      refine foldl_applyEmit_no_entered (clientStep c e).2 (clientStep c e).1
        hstep.1 ?_
      rw [hstep.2]
      exact hc

/-- Claim C8: a joining client never reaches InLobby before a
ConnectionOpen is reported (no sequence of join requests, fetched
documents and connection closes moves the lobby state to InLobby), and
when the channel does open, OnLobbyJoined and OnLobbyEntered are emitted
exactly once for that join, for every nonempty sequence of
ConnectionOpen reports, guarded by the client_emitted_join flag. -/
theorem c8_in_lobby_only_after_open :
    (∀ (evs : List ClientEvent),
       (∀ e ∈ evs, isCreateEvent e = false) →
       (∀ e ∈ evs, isOpenEvent e = false) →
       (runClient ClientCtx.init evs).1.lobby ≠ P2PLobbyState.inLobby) ∧
    (∀ (sig : SignalingState) (opens : List Nat), sig.is_host = false →
       ((sig.client_emitted_join = false → opens ≠ [] →
          countJoined (processOpens sig opens).2 = 1 ∧
          countEntered (processOpens sig opens).2 = 1) ∧
        (sig.client_emitted_join = true →
          countJoined (processOpens sig opens).2 = 0 ∧
          countEntered (processOpens sig opens).2 = 0))) := by
  constructor
  · intro evs hcr hop
    exact runClient_no_open_stays_out evs ClientCtx.init hcr hop (by decide)
  · intro sig opens hh
    have h := processOpens_counts opens sig hh
    exact ⟨h.2, h.1⟩

/-- Witness for C8 on a concrete join trace and a concrete open batch. -/
theorem c8_in_lobby_only_after_open_witness :
    (runClient ClientCtx.init
      [ClientEvent.joinReq "R" "7",
       ClientEvent.inboxDoc (InboxDoc.real ⟨some [], some []⟩)]).1.lobby ≠
        P2PLobbyState.inLobby ∧
    countEntered (processOpens
      { SignalingState.init with room_code := "R" } [1, 2]).2 = 1 := by
  constructor
  · exact c8_in_lobby_only_after_open.1
      [ClientEvent.joinReq "R" "7",
       ClientEvent.inboxDoc (InboxDoc.real ⟨some [], some []⟩)]
      (by decide) (by decide)
  · exact ((c8_in_lobby_only_after_open.2
      { SignalingState.init with room_code := "R" } [1, 2] rfl).1 rfl
      (by decide)).2

/-- Claim C9 evidence: a fetch of a room that does not exist yet comes
back as a non-ok response, which http_fetch_json turns into None and the
pump task pushes as Null (pumpFetchDoc); processing that Null document
leaves the backoff state untouched (next fetch stays on the steady
500 ms cadence, nothing is logged), whereas the pump's own not_found
branch - which no producer ever reaches, since nothing pushes a
not_found status document - would have extended the next allowed fetch
to now + 1500 ms and logged once. -/
theorem c9_not_found_backoff_unreachable :
    pumpFetchDoc false ⟨some [], some []⟩ = InboxDoc.nullDoc ∧
    (firestore_pump 2600 [InboxDoc.nullDoc]
      { SignalingState.init with room_code := "ABCDEF", client_id := some "7" }
      ⟨true, 2500, false, false⟩ 0).2.1 = ⟨true, 3100, false, false⟩ ∧
    (firestore_pump 2600 [InboxDoc.nullDoc]
      { SignalingState.init with room_code := "ABCDEF", client_id := some "7" }
      ⟨true, 2500, false, false⟩ 0).2.2.2.logs = 0 ∧
    (firestore_pump 2600 [InboxDoc.notFound]
      { SignalingState.init with room_code := "ABCDEF", client_id := some "7" }
      ⟨true, 2500, false, false⟩ 0).2.1 = ⟨false, 4100, true, false⟩ ∧
    (firestore_pump 2600 [InboxDoc.notFound]
      { SignalingState.init with room_code := "ABCDEF", client_id := some "7" }
      ⟨true, 2500, false, false⟩ 0).2.2.2.logs = 1 := by
  refine ⟨rfl, ?_, ?_, ?_, ?_⟩ <;> decide

/-- NetworkedId serde encoding round-trips. -/
theorem decodeNetworkedId_encode {F : Type} (id : NetworkedId) :
    decodeNetworkedId (encodeNetworkedId F id) = some id := by
  cases id <;> rfl

/-- PlayerInfo serde encoding round-trips, given a round-tripping
PlayerData codec. -/
theorem decodePlayerInfo_encode {F PD : Type} (encPD : PD → Json F)
    (decPD : Json F → Option PD) (hPD : ∀ d, decPD (encPD d) = some d)
    (p : PlayerInfo PD) :
    decodePlayerInfo decPD (encodePlayerInfo encPD p) = some p := by
  obtain ⟨id, d⟩ := p
  have h1 : decodePlayerInfo decPD (encodePlayerInfo encPD ⟨id, d⟩) =
      (decPD (encPD d)).bind (fun x => some ⟨id, x⟩) := by
    cases id <;> rfl
  rw [h1, hPD]
  rfl

/-- NetTransform serde encoding round-trips. -/
theorem decodeNetTransform_encode {F : Type} (t : NetTransform F) :
    decodeNetTransform (encodeNetTransform t) = some t := by
  obtain ⟨⟨tx, ty, tz⟩, ⟨ra, rb, rc, rd⟩, ⟨sx, sy, sz⟩⟩ := t
  rfl

/-- InstantiationDataNet serde encoding round-trips, given a
round-tripping Instantiations codec. -/
theorem decodeInstantiationDataNet_encode {F Inst : Type}
    (encInst : Inst → Json F) (decInst : Json F → Option Inst)
    (hInst : ∀ i, decInst (encInst i) = some i)
    (d : InstantiationDataNet F Inst) :
    decodeInstantiationDataNet decInst (encodeInstantiationDataNet encInst d) =
      some d := by
  obtain ⟨t, i⟩ := d
  have h1 : decodeInstantiationDataNet decInst
      (encodeInstantiationDataNet encInst ⟨t, i⟩) =
      (decodeNetTransform (encodeNetTransform t)).bind
        (fun t2 => (decInst (encInst i)).bind (fun i2 => some ⟨t2, i2⟩)) := rfl
  rw [h1, decodeNetTransform_encode, hInst]
  rfl

/-- Vec serde encoding round-trips element-wise. -/
theorem decodeJsonList_map {F α : Type} (enc : α → Json F)
    (dec : Json F → Option α) (h : ∀ a, dec (enc a) = some a) :
    ∀ l : List α, decodeJsonList dec (l.map enc) = some l
  | [] => rfl
  | a :: l => by
      have h1 : decodeJsonList dec ((a :: l).map enc) =
          (dec (enc a)).bind (fun x =>
            (decodeJsonList dec (l.map enc)).bind
              (fun rest => some (x :: rest))) := rfl
      rw [h1, h, decodeJsonList_map enc dec h l]
      rfl

/-- Claim C1: for every P2PData value m - every variant of the wire
tagged union, nested PlayerInfo lists, InstantiationDataNet and its
NetTransform included - decoding the JSON document produced for m (the
serde_json round-trip performed by encode_outgoing and decode_incoming)
yields m again, whenever the application-payload codecs (PlayerData,
PlayerInputData, Instantiations) themselves round-trip. -/
theorem c1_wire_roundtrip {F PD PID Inst : Type}
    (encPD : PD → Json F) (decPD : Json F → Option PD)
    (encPID : PID → Json F) (decPID : Json F → Option PID)
    (encInst : Inst → Json F) (decInst : Json F → Option Inst)
    (hPD : ∀ d, decPD (encPD d) = some d)
    (hPID : ∀ i, decPID (encPID i) = some i)
    (hInst : ∀ i, decInst (encInst i) = some i)
    (m : P2PData F PD PID Inst) :
    decodeP2PData decPD decPID decInst
      (encodeP2PData encPD encPID encInst m) = some m := by
  cases m with
  | clientLobbyChatMessage text sender =>
      have h1 : decodeP2PData decPD decPID decInst
          (encodeP2PData encPD encPID encInst
            (.clientLobbyChatMessage text sender)) =
          (decodeNetworkedId (encodeNetworkedId F sender)).map
            (fun s => .clientLobbyChatMessage text s) := rfl
      rw [h1, decodeNetworkedId_encode]
      rfl
  | clientInput input =>
      have h1 : decodeP2PData decPD decPID decInst
          (encodeP2PData encPD encPID encInst (.clientInput input)) =
          (decPID (encPID input)).map (fun i => .clientInput i) := rfl
      rw [h1, hPID]
      rfl
  | clientDataUpdate d =>
      have h1 : decodeP2PData decPD decPID decInst
          (encodeP2PData encPD encPID encInst (.clientDataUpdate d)) =
          (decPD (encPD d)).map (fun x => .clientDataUpdate x) := rfl
      rw [h1, hPD]
      rfl
  | hostLobbyInfoUpdate players =>
      have h1 : decodeP2PData decPD decPID decInst
          (encodeP2PData encPD encPID encInst (.hostLobbyInfoUpdate players)) =
          (decodeJsonList (decodePlayerInfo decPD)
            (players.map (encodePlayerInfo encPD))).map
            (fun ps => .hostLobbyInfoUpdate ps) := rfl
      rw [h1, decodeJsonList_map (encodePlayerInfo encPD)
        (decodePlayerInfo decPD) (decodePlayerInfo_encode encPD decPD hPD)]
      rfl
  | stateSync index payload => rfl
  | eventSync index payload => rfl
  | hostInstantiation d =>
      have h1 : decodeP2PData decPD decPID decInst
          (encodeP2PData encPD encPID encInst (.hostInstantiation d)) =
          (decodeInstantiationDataNet decInst
            (encodeInstantiationDataNet encInst d)).map
            (fun x => .hostInstantiation x) := rfl
      rw [h1, decodeInstantiationDataNet_encode encInst decInst hInst]
      rfl
  | pingRequest t => rfl

/-- Witness for C1 at concrete payload codecs (PlayerData = String,
PlayerInputData = Instantiations = Nat, scalars = Int): a roster
broadcast with host and client entries, and an instantiation carrying a
NetTransform, both round-trip. -/
theorem c1_wire_roundtrip_witness :
    decodeP2PData
      (fun j : Json Int => (match j with | Json.str s => some s | _ => none : Option String))
      (fun j : Json Int => (match j with | Json.num n => some n | _ => none : Option Nat))
      (fun j : Json Int => (match j with | Json.num n => some n | _ => none : Option Nat))
      (encodeP2PData Json.str Json.num Json.num
        (P2PData.hostLobbyInfoUpdate
          [⟨NetworkedId.host, "a"⟩, ⟨NetworkedId.clientId 9, "b"⟩])) =
      some (P2PData.hostLobbyInfoUpdate
        [⟨NetworkedId.host, "a"⟩, ⟨NetworkedId.clientId 9, "b"⟩]) ∧
    decodeP2PData
      (fun j : Json Int => (match j with | Json.str s => some s | _ => none : Option String))
      (fun j : Json Int => (match j with | Json.num n => some n | _ => none : Option Nat))
      (fun j : Json Int => (match j with | Json.num n => some n | _ => none : Option Nat))
      (encodeP2PData Json.str Json.num Json.num
        (P2PData.hostInstantiation ⟨⟨(1, 2, 3), (0, 0, 0, 1), (1, 1, 1)⟩, 5⟩)) =
      some (P2PData.hostInstantiation
        ⟨⟨(1, 2, 3), (0, 0, 0, 1), (1, 1, 1)⟩, 5⟩) := by
  constructor
  · exact c1_wire_roundtrip Json.str
      (fun j : Json Int => (match j with | Json.str s => some s | _ => none : Option String))
      Json.num (fun j : Json Int => (match j with | Json.num n => some n | _ => none : Option Nat))
      Json.num (fun j : Json Int => (match j with | Json.num n => some n | _ => none : Option Nat))
      (fun d => rfl) (fun i => rfl) (fun i => rfl)
      (P2PData.hostLobbyInfoUpdate
        [⟨NetworkedId.host, "a"⟩, ⟨NetworkedId.clientId 9, "b"⟩])
  · exact c1_wire_roundtrip Json.str
      (fun j : Json Int => (match j with | Json.str s => some s | _ => none : Option String))
      Json.num (fun j : Json Int => (match j with | Json.num n => some n | _ => none : Option Nat))
      Json.num (fun j : Json Int => (match j with | Json.num n => some n | _ => none : Option Nat))
      (fun d => rfl) (fun i => rfl) (fun i => rfl)
      (P2PData.hostInstantiation ⟨⟨(1, 2, 3), (0, 0, 0, 1), (1, 1, 1)⟩, 5⟩)

end BevyKart
